import Mathlib

/-!
Verification of the SAJ H2 inverter card timer (a Home Assistant custom card).

This file shallowly embeds the card's logic in Lean 4 and proves the spec's
testable properties about it.  JavaScript values are modelled as follows:
strings are `String`/`List Char`, JS numbers are `ℚ` (exact arithmetic;
`Math.round x` is `⌊x + 1/2⌋`, which is JS round-half-up), `NaN` results of
parsing are `Option.none`, the Home Assistant state object is a partial map
from entity ids to state records, and service calls are reified as a list of
emitted commands.  `Date` arithmetic on times of day is modelled as minute
arithmetic modulo 1440 (no DST).
-/

namespace SajCard

/-! ## JS string/number primitives -/

/-- The ASCII digit character for `n < 10` (models the digits produced by
JS `String(n)`). -/
def digitChar : Nat → Char
  | 0 => '0' | 1 => '1' | 2 => '2' | 3 => '3' | 4 => '4'
  | 5 => '5' | 6 => '6' | 7 => '7' | 8 => '8' | _ => '9'

/-- Digit expansion worker: the fuel (always called with fuel `> n`) only
makes the recursion structural; it never changes the value. -/
def natToCharsAux : Nat → Nat → List Char
  | 0, _ => []
  | fuel + 1, n =>
    if n < 10 then [digitChar n]
    else natToCharsAux fuel (n / 10) ++ [digitChar (n % 10)]

/-- Decimal digit characters of `n`, as JS `String(n)` produces for a
non-negative integer. -/
def natToChars (n : Nat) : List Char := natToCharsAux (n + 1) n

/-- JS `String(n).padStart(2, '0')`. -/
def pad2 (n : Nat) : List Char :=
  if n < 10 then '0' :: natToChars n else natToChars n

/-- `true` for an ASCII decimal digit. -/
def jsIsDigit (c : Char) : Bool :=
  48 ≤ c.toNat && c.toNat ≤ 57

/-- Value of a digit string read left to right (used under a digits-only
guard). -/
def charsToNat (cs : List Char) : Nat :=
  cs.foldl (fun a c => 10 * a + (c.toNat - 48)) 0

/-- JS `Number(s)` restricted to the shapes the card produces: a string of
decimal digits parses to its value, the empty string parses to `0` (as in
JS), anything else is `NaN` (`none`).  Signs, blanks and fractions never
reach `Number` in the modelled code paths. -/
def jsNumberChars (cs : List Char) : Option Nat :=
  if cs.all jsIsDigit then some (charsToNat cs) else none

/-- JS `s.split(':')` on the character list of `s`. -/
def splitColon : List Char → List (List Char)
  | [] => [[]]
  | c :: rest =>
    if c = ':' then [] :: splitColon rest
    else
      match splitColon rest with
      | [] => [[c]]
      | g :: gs => (c :: g) :: gs

/-- JS `parseInt(s, 10)`: skip leading whitespace, optional sign, then the
longest digit prefix; `NaN` (`none`) if no digit follows. -/
def jsParseInt (s : String) : Option Int :=
  let cs := s.data.dropWhile (fun c => c = ' ' || c = '\t' || c = '\n' || c = '\r')
  let (sign, cs) : Int × List Char :=
    match cs with
    | '-' :: rest => (-1, rest)
    | '+' :: rest => (1, rest)
    | rest => (1, rest)
  let digits := cs.takeWhile jsIsDigit
  if digits = [] then none else some (sign * (charsToNat digits : Int))

/-- JS `Math.round` on our exact-number model: round half toward `+∞`. -/
def jsRound (x : ℚ) : ℤ := ⌊x + 1/2⌋

/-! ## Data model: modes, entity roles, snapshots, commands -/

/-- The card's `mode` configuration value. -/
inductive Mode
  | charge
  | discharge
  | both
deriving DecidableEq, Repr

/-- The thirteen entity roles of `DEFAULT_ENTITIES` (after configuration
merging, `this._entities`), each holding an entity id. -/
structure Entities where
  chargeStart : String
  chargeEnd : String
  chargeDayMask : String
  chargePower : String
  chargingSwitch : String
  chargePowerSensor : String
  batteryChargePowerLimit : String
  dischargeStart : String
  dischargeEnd : String
  dischargePower : String
  dischargeDayMask : String
  dischargingSwitch : String
  dischargePowerSensor : String
deriving DecidableEq, Repr

/-- `DEFAULT_ENTITIES` from the source. -/
def defaultEntities : Entities where
  chargeStart := "text.saj_charge_start_time_time"
  chargeEnd := "text.saj_charge_end_time_time"
  chargeDayMask := "number.saj_charge_day_mask_input"
  chargePower := "number.saj_battery_charge_power_limit_input"
  chargingSwitch := "switch.saj_charging_control"
  chargePowerSensor := "sensor.saj_charge_power_percent"
  batteryChargePowerLimit := "sensor.saj_battery_charge_power_limit"
  dischargeStart := "text.saj_discharge1_start_time_time"
  dischargeEnd := "text.saj_discharge1_end_time_time"
  dischargePower := "number.saj_discharge1_power_percent_input"
  dischargeDayMask := "number.saj_discharge1_day_mask_input"
  dischargingSwitch := "switch.saj_discharging_control"
  dischargePowerSensor := "sensor.saj_discharge_power_percent"

/-- The fields of a `hass.states[id]` record that `_shouldUpdate` inspects,
plus one opaque field `other` standing for every attribute the code never
reads (so that "no other attribute difference triggers a refresh" is a real
statement). `pending_write` is `none` when the attribute is absent. -/
structure EntityState where
  state : String
  pending_write : Option Bool
  last_changed : String
  last_updated : String
  other : String
deriving DecidableEq, Repr

/-- A `hass.states` snapshot: a partial map from entity id to record. -/
def Snapshot : Type := String → Option EntityState

/-- An outbound Home Assistant service call, reified. -/
inductive Cmd
  | setText (entityId : String) (value : String)
  | setNumber (entityId : String) (value : Int)
  | turnOn (entityId : String)
  | turnOff (entityId : String)
deriving DecidableEq, Repr

/-! ## `_shouldUpdate`: refresh decision -/

/-- The relevant entity ids collected by `_shouldUpdate` for the current
mode, in push order (charge roles unless mode is `discharge`, discharge
roles unless mode is `charge`). -/
def relevantEntityIds (mode : Mode) (e : Entities) : List String :=
  (if mode ≠ .discharge then
    [e.chargeStart, e.chargeEnd, e.chargeDayMask, e.chargePower,
     e.chargingSwitch, e.chargePowerSensor, e.batteryChargePowerLimit]
   else []) ++
  (if mode ≠ .charge then
    [e.dischargeStart, e.dischargeEnd, e.dischargeDayMask, e.dischargePower,
     e.dischargingSwitch, e.dischargePowerSensor]
   else [])

/-- `[...new Set(xs)]`: drop duplicates, keeping the first occurrence of
each element (`seen` accumulates the elements already kept). -/
def jsSetDedup (seen : List String) : List String → List String
  | [] => []
  | x :: xs =>
    if x ∈ seen then jsSetDedup seen xs else x :: jsSetDedup (x :: seen) xs

/-- `[...new Set(relevantEntityIds)].filter(Boolean)`. -/
def uniqueIds (mode : Mode) (e : Entities) : List String :=
  (jsSetDedup [] (relevantEntityIds mode e)).filter (· ≠ "")

/-- The per-entity comparison inside `_shouldUpdate`'s loop: an update is
triggered when the entity appeared or disappeared, or its `state`,
`pending_write`, `last_changed` or `last_updated` changed.  (The source's
leading `oldState !== newState` reference check only short-circuits
reference-equal records, whose inspected fields are equal anyway, so it does
not affect the boolean result.) -/
def stateTriggers (o n : Option EntityState) : Bool :=
  match o, n with
  | none, none => false
  | none, some _ => true
  | some _, none => true
  | some os, some ns =>
    os.state ≠ ns.state || os.pending_write ≠ ns.pending_write ||
    os.last_changed ≠ ns.last_changed || os.last_updated ≠ ns.last_updated

/-- `_shouldUpdate(newHass)`: `true` when there is no previous snapshot, or
some relevant entity triggers. -/
def shouldUpdate (mode : Mode) (e : Entities) (oldHass : Option Snapshot)
    (newHass : Snapshot) : Bool :=
  match oldHass with
  | none => true
  | some old => (uniqueIds mode e).any fun id => stateTriggers (old id) (newHass id)

/-! ## Power unit conversions -/

/-- `_percentToSliderKw`: percentage to kW in 0.5 kW steps. -/
def percentToSliderKw (maxOutput percent : ℚ) : ℚ :=
  (jsRound (percent / 100 * maxOutput * 2) : ℚ) / 2

/-- `_sliderKwToPercent`: slider kW back to a (whole-number) percentage. -/
def sliderKwToPercent (maxOutput kw : ℚ) : ℤ :=
  jsRound (kw / maxOutput * 100)

/-! ## Day-mask conversions -/

/-- The JS day-selection object (`monday` … `sunday` keys). -/
structure Days where
  monday : Bool
  tuesday : Bool
  wednesday : Bool
  thursday : Bool
  friday : Bool
  saturday : Bool
  sunday : Bool
deriving DecidableEq, Repr

/-- `_calculateDaymask`: sum of `1 << i` over the selected days. -/
def calculateDaymask (d : Days) : Nat :=
  (if d.monday then 1 <<< 0 else 0) + (if d.tuesday then 1 <<< 1 else 0) +
  (if d.wednesday then 1 <<< 2 else 0) + (if d.thursday then 1 <<< 3 else 0) +
  (if d.friday then 1 <<< 4 else 0) + (if d.saturday then 1 <<< 5 else 0) +
  (if d.sunday then 1 <<< 6 else 0)

/-- `_getDaysFromMask`: bit `i` of the mask selects day `i`. -/
def getDaysFromMask (mask : Nat) : Days where
  monday := mask &&& (1 <<< 0) ≠ 0
  tuesday := mask &&& (1 <<< 1) ≠ 0
  wednesday := mask &&& (1 <<< 2) ≠ 0
  thursday := mask &&& (1 <<< 3) ≠ 0
  friday := mask &&& (1 <<< 4) ≠ 0
  saturday := mask &&& (1 <<< 5) ≠ 0
  sunday := mask &&& (1 <<< 6) ≠ 0

/-- `_getTodayDayMask` as a function of `new Date().getDay()`
(0 = Sunday … 6 = Saturday). -/
def getTodayDayMask (jsDay : Nat) : Nat :=
  1 <<< (if jsDay = 0 then 6 else jsDay - 1)

/-! ## Time helpers -/

/-- The arithmetic-and-formatting tail of `_calculateEndTime` once both
time components and the duration parsed: `Date` plus-minutes arithmetic
modulo one day, followed by two zero-padded components. -/
def formatEndTime (h m : Nat) (d : Int) : String :=
  let tot := ((((h * 60 + m : Nat) : Int) + d) % 1440).toNat
  String.mk (pad2 (tot / 60) ++ ':' :: pad2 (tot % 60))

/-- `_calculateEndTime(startTime, durationMinutes)`.  The start string is
split on `':'` and both parts go through `Number`; the `Date` round trip is
minute arithmetic modulo 1440.  A `NaN` anywhere (unparsable component or
`NaN` duration) propagates to the `"NaN:NaN"` string that JS time formatting
of an invalid date produces. -/
def calculateEndTime (startTime : String) (durationMinutes : Option Int) : String :=
  let parts := splitColon startTime.data
  let hm : Option Nat × Option Nat :=
    match parts with
    | a :: b :: _ => (jsNumberChars a, jsNumberChars b)
    | [a] => (jsNumberChars a, none)
    | [] => (none, none)
  match hm.1, hm.2, durationMinutes with
  | some h, some m, some d => formatEndTime h m d
  | _, _, _ => "NaN:NaN"

/-- The strict time regex `^([01]\d|2[0-3]):([0-5]\d)$` as a predicate on
the character list of the tested string. -/
def validTime (cs : List Char) : Bool :=
  match cs with
  | [h1, h2, c, m1, m2] =>
    c = ':' &&
    (((h1 = '0' || h1 = '1') && jsIsDigit h2) ||
      (h1 = '2' && 48 ≤ h2.toNat && h2.toNat ≤ 51)) &&
    (48 ≤ m1.toNat && m1.toNat ≤ 53) && jsIsDigit m2
  | _ => false

/-- `_timeToMinutes(timeStr)`: `0` for a missing (`none`), empty or
regex-rejected string, otherwise `hours * 60 + minutes` of the two parsed
components.  (Under the regex guard the split always yields two digit
groups; the final catch-all `0` is unreachable.) -/
def timeToMinutes : Option String → Nat
  | none => 0
  | some s =>
    if s = "" then 0
    else if ¬ validTime s.data then 0
    else
      match splitColon s.data with
      | a :: b :: _ => charsToNat a * 60 + charsToNat b
      | _ => 0

/-! ## Expiry check and command emission -/

/-- The two schedule directions of the card. -/
inductive Direction
  | charge
  | discharge
deriving DecidableEq, Repr

/-- The enable/disable switch role of a direction. -/
def switchEnt : Direction → Entities → String
  | .charge, e => e.chargingSwitch
  | .discharge, e => e.dischargingSwitch

/-- The end-time role of a direction. -/
def endEnt : Direction → Entities → String
  | .charge, e => e.chargeEnd
  | .discharge, e => e.dischargeEnd

/-- The start-time role of a direction. -/
def startEnt : Direction → Entities → String
  | .charge, e => e.chargeStart
  | .discharge, e => e.dischargeStart

/-- The day-mask role of a direction. -/
def dayMaskEnt : Direction → Entities → String
  | .charge, e => e.chargeDayMask
  | .discharge, e => e.dischargeDayMask

/-- The power-setpoint role of a direction. -/
def powerEnt : Direction → Entities → String
  | .charge, e => e.chargePower
  | .discharge, e => e.dischargePower

/-- Whether `_checkTimerExpiration`/`_addEventListeners` handle a direction
under the configured mode. -/
def directionEnabled (d : Direction) (mode : Mode) : Prop :=
  match d with
  | .charge => mode ≠ .discharge
  | .discharge => mode ≠ .charge

instance : (d : Direction) → (mode : Mode) → Decidable (directionEnabled d mode)
  | .charge, mode => inferInstanceAs (Decidable (mode ≠ .discharge))
  | .discharge, mode => inferInstanceAs (Decidable (mode ≠ .charge))

/-- One direction's branch of `_checkTimerExpiration`: if the direction's
switch record reads `'on'` and the end-time record's state is truthy
(non-empty), and the end time in minutes is not after the current time in
minutes, emit one `turn_off` for the switch. -/
def checkDirExpiration : Option EntityState → Option EntityState → String → Nat → List Cmd
  | none, _, _, _ => []
  | some _, none, _, _ => []
  | some s, some t, switchId, currentTimeMinutes =>
    if s.state = "on" then
      if t.state ≠ "" then
        if timeToMinutes (some t.state) ≤ currentTimeMinutes then
          [Cmd.turnOff switchId]
        else []
      else []
    else []

/-- `_checkTimerExpiration()`, parametrised by the wall-clock `now` string
(`_getCurrentTime()`); the charge branch runs first, then the discharge
branch. -/
def checkTimerExpiration (mode : Mode) (e : Entities) (hass : Snapshot)
    (now : String) : List Cmd :=
  let currentTimeMinutes := timeToMinutes (some now)
  (if mode ≠ .discharge then
    checkDirExpiration (hass e.chargingSwitch) (hass e.chargeEnd)
      e.chargingSwitch currentTimeMinutes
   else []) ++
  (if mode ≠ .charge then
    checkDirExpiration (hass e.dischargingSwitch) (hass e.dischargeEnd)
      e.dischargingSwitch currentTimeMinutes
   else [])

/-- `_setEntityValue(entityId, value, domain)` for the `text`/`number`
domains: no command is emitted for a falsy (empty) entity id or an entity id
absent from `hass.states`; otherwise one `set_value` call is emitted. -/
def setEntityValue (hass : Snapshot) (entityId : String) (value : Cmd) : List Cmd :=
  if entityId = "" then []
  else
    match hass entityId with
    | none => []
    | some _ => [value]

/-- `timerInput ? parseInt(timerInput.value, 10) : 30`: the duration used
by the Enable handler, from the duration `<input>`'s string value (`none`
when the element is missing; an unparsable value is `NaN`). -/
def parsedDuration : Option String → Option Int
  | none => some 30
  | some s => jsParseInt s

/-- The click handler installed on a direction's Enable button
(`_addChargingEventListeners` / `_addDischargingEventListeners`, which are
identical up to entity roles and the slider-missing default kW).  Parameters
model the environment: `timerVal` is the duration `<input>`'s string value
(`none` when the element is missing), `sliderVal` the parsed value of the
power slider (`none` when missing), `now` the wall clock `_getCurrentTime()`
and `jsDay` the wall clock `getDay()`. -/
def enableClick (d : Direction) (maxOutput : ℚ) (e : Entities) (hass : Snapshot)
    (timerVal : Option String) (sliderVal : Option ℚ) (now : String)
    (jsDay : Nat) : List Cmd :=
  let currentState := (hass (switchEnt d e)).map (·.state)
  let duration : Option Int := parsedDuration timerVal
  if currentState = some "on" then
    -- Extend: set end time to current time + duration
    setEntityValue hass (endEnt d e)
      (.setText (endEnt d e) (calculateEndTime now duration))
  else
    -- Enable: write schedule and power, then turn the switch on
    let kw := sliderVal.getD (match d with | .charge => 5/4 | .discharge => 5/2)
    let power := sliderKwToPercent maxOutput kw
    let startTime := now
    let endTime := calculateEndTime startTime duration
    let dayMask := getTodayDayMask jsDay
    setEntityValue hass (startEnt d e) (.setText (startEnt d e) startTime) ++
    setEntityValue hass (endEnt d e) (.setText (endEnt d e) endTime) ++
    setEntityValue hass (dayMaskEnt d e) (.setNumber (dayMaskEnt d e) (dayMask : Int)) ++
    setEntityValue hass (powerEnt d e) (.setNumber (powerEnt d e) power) ++
    [Cmd.turnOn (switchEnt d e)]

/-! ## JS values, `_deepMerge` and `setConfig` -/

/-- A JS value as it appears in the card's configuration handling.  Objects
are association lists in key insertion order; real JS objects have distinct
keys, which the merge lemmas take as a hypothesis.  `undef` doubles as the
result of a missing-property read. -/
inductive JVal
  | null
  | undef
  | jbool (b : Bool)
  | jnum (q : ℚ)
  | jstr (s : String)
  | jarr (xs : List JVal)
  | jobj (fields : List (String × JVal))

/-- JS truthiness of a `JVal` (`NaN` is not modelled; see `jsNumberChars`). -/
def jsTruthy : JVal → Bool
  | .null => false
  | .undef => false
  | .jbool b => b
  | .jnum q => q ≠ 0
  | .jstr s => s ≠ ""
  | .jarr _ => true
  | .jobj _ => true

/-- `_deepMerge`'s `isObject`: truthy, of object type and not an array. -/
def isObjectJS : JVal → Bool
  | .jobj _ => true
  | _ => false

/-- Property read `fields[k]`: first binding of `k`, or `undefined`. -/
def jsGet (fields : List (String × JVal)) (k : String) : JVal :=
  match fields with
  | [] => .undef
  | (k', v) :: rest => if k' = k then v else jsGet rest k

/-- Property write `fields[k] = v`: overwrite the first binding of `k` in
place, or append a new binding. -/
def jsSet (fields : List (String × JVal)) (k : String) (v : JVal) :
    List (String × JVal) :=
  match fields with
  | [] => [(k, v)]
  | (k', v') :: rest => if k' = k then (k', v) :: rest else (k', v') :: jsSet rest k v

/-- `true` iff the value is `undefined`. -/
def isUndef : JVal → Bool
  | .undef => true
  | _ => false

/-- `_deepMerge`'s second loop over `Object.keys(target)`: restore
`target[key]` whenever `source[key] === undefined`. -/
def targetPass (sf : List (String × JVal)) :
    List (String × JVal) → List (String × JVal) → List (String × JVal)
  | acc, [] => acc
  | acc, (k, v) :: rest =>
    targetPass sf (if isUndef (jsGet sf k) then jsSet acc k v else acc) rest

mutual

/-- `_deepMerge(target, source)`.  For two objects: start from a copy of the
target, fold the source keys in order combining values, then restore target
values for keys the source maps to `undefined`; otherwise return the source
unless it is `null`/`undefined`, in which case the target. -/
def deepMerge (t s : JVal) : JVal :=
  match t, s with
  | .jobj tf, .jobj sf => .jobj (targetPass sf (sourcePass tf tf sf) tf)
  | t, s =>
    match s with
    | .null => t
    | .undef => t
    | s => s

/-- `_deepMerge`'s first loop over `Object.keys(source)`.  The loop body
reads `output[key]`, which (keys of a JS object being distinct) still holds
the target's original value for that key, so the combination reads from
`tf` directly. -/
def sourcePass (tf acc : List (String × JVal)) :
    List (String × JVal) → List (String × JVal)
  | [] => acc
  | (k, v) :: rest => sourcePass tf (jsSet acc k (combineVal (jsGet tf k) v)) rest

/-- The per-key combination of `_deepMerge`'s first loop: arrays are
replaced wholesale, two objects merge recursively, anything else takes the
source value. -/
def combineVal (tv sv : JVal) : JVal :=
  match tv, sv with
  | .jarr _, .jarr ys => .jarr ys
  | .jobj tf, .jobj sf => deepMerge (.jobj tf) (.jobj sf)
  | _, sv => sv

end

/-- `DEFAULT_ENTITIES` as the JS object `setConfig` merges overrides onto. -/
def defaultEntitiesJson : JVal :=
  .jobj [("chargeStart", .jstr defaultEntities.chargeStart),
         ("chargeEnd", .jstr defaultEntities.chargeEnd),
         ("chargeDayMask", .jstr defaultEntities.chargeDayMask),
         ("chargePower", .jstr defaultEntities.chargePower),
         ("chargingSwitch", .jstr defaultEntities.chargingSwitch),
         ("chargePowerSensor", .jstr defaultEntities.chargePowerSensor),
         ("batteryChargePowerLimit", .jstr defaultEntities.batteryChargePowerLimit),
         ("dischargeStart", .jstr defaultEntities.dischargeStart),
         ("dischargeEnd", .jstr defaultEntities.dischargeEnd),
         ("dischargePower", .jstr defaultEntities.dischargePower),
         ("dischargeDayMask", .jstr defaultEntities.dischargeDayMask),
         ("dischargingSwitch", .jstr defaultEntities.dischargingSwitch),
         ("dischargePowerSensor", .jstr defaultEntities.dischargePowerSensor)]

/-- The raw Lovelace configuration object (the fields `setConfig` reads). -/
structure RawConfig where
  mode : JVal
  maxOutput : JVal
  entities : JVal
  debug : JVal

/-- The widget state `setConfig` establishes on success. -/
structure WidgetCfg where
  mode : Mode
  inverterMaxOutput : ℚ
  entities : JVal
  debug : Bool

/-- `['charge','discharge','both'].includes(mode)` with the matching
constructor. -/
def parseMode : JVal → Option Mode
  | .jstr "charge" => some Mode.charge
  | .jstr "discharge" => some Mode.discharge
  | .jstr "both" => some Mode.both
  | _ => none

/-- `config.mode || 'both'` followed by the closed-set membership test. -/
def resolveMode (v : JVal) : Option Mode :=
  parseMode (if jsTruthy v then v else .jstr "both")

/-- `config.maxOutput || 5.0`: the value `setConfig` then validates. -/
def resolveMax (v : JVal) : JVal :=
  if jsTruthy v then v else .jnum 5

/-- `config.debug === true`. -/
def resolveDebug : JVal → Bool
  | .jbool true => true
  | _ => false

/-- The `maxOutput` validation tail of `setConfig`: error unless the
resolved value is a positive number, otherwise the final widget state. -/
def validateMax (v : JVal) (mode : Mode) (ents : JVal) (dbg : Bool) :
    Except String WidgetCfg :=
  match resolveMax v with
  | .jnum q =>
    if q ≤ 0 then .error "Invalid maxOutput"
    else .ok { mode := mode, inverterMaxOutput := q, entities := ents, debug := dbg }
  | _ => .error "Invalid maxOutput"

/-- `setConfig(config)` as a fatal-error-or-state function: a missing
config, a mode outside the closed three-value set, or a resolved
`maxOutput` that is not a positive number each raise synchronously
(`Except.error`); otherwise the resolved state is returned.  Note the
source first replaces a falsy `config.maxOutput` with the default `5.0`
and only then validates. -/
def setConfig : Option RawConfig → Except String WidgetCfg
  | none => .error "Invalid configuration"
  | some c =>
    match resolveMode c.mode with
    | none => .error "Invalid mode"
    | some mode =>
      validateMax c.maxOutput mode
        (deepMerge defaultEntitiesJson
          (if jsTruthy c.entities then c.entities else .jobj []))
        (resolveDebug c.debug)

/-- `true` on the error branch of a fallible computation. -/
def exceptIsError : Except String WidgetCfg → Bool
  | .error _ => true
  | .ok _ => false

/-! ## C6: day-mask round trip -/

/-- C6: for every integer mask `m` in `[0, 127]`, converting the mask to the
seven-weekday selection object with `_getDaysFromMask` and converting that
object back with `_calculateDaymask` returns exactly `m`. -/
theorem daymask_roundtrip (m : Nat) (h : m ≤ 127) :
    calculateDaymask (getDaysFromMask m) = m := by
  revert h
  revert m
  decide

/-- Witness for `daymask_roundtrip` at the concrete mask `85`
(Mon/Wed/Fri/Sun). -/
theorem daymask_roundtrip_witness :
    85 ≤ 127 ∧ calculateDaymask (getDaysFromMask 85) = 85 :=
  ⟨by decide, daymask_roundtrip 85 (by decide)⟩

/-! ## C1: no refresh without a relevant observable change -/

/-- Two optional entity records agree on everything `_shouldUpdate`
inspects: same presence and, when present, same `state`, `pending_write`,
`last_changed` and `last_updated` (the `other` attributes may differ). -/
def observEq (o n : Option EntityState) : Prop :=
  match o, n with
  | none, none => True
  | some os, some ns =>
    os.state = ns.state ∧ os.pending_write = ns.pending_write ∧
    os.last_changed = ns.last_changed ∧ os.last_updated = ns.last_updated
  | _, _ => False

instance : (o n : Option EntityState) → Decidable (observEq o n)
  | none, none => isTrue trivial
  | none, some _ => isFalse fun h => h
  | some _, none => isFalse fun h => h
  | some os, some ns =>
    inferInstanceAs (Decidable (os.state = ns.state ∧ os.pending_write = ns.pending_write ∧
      os.last_changed = ns.last_changed ∧ os.last_updated = ns.last_updated))

/-- C1: for snapshot pairs `(A, B)` whose entries for every entity in the
active mode's relevant set agree in presence, value, pending-write flag and
both timestamps (entities outside the relevant set, and unread attributes,
may differ arbitrarily), `_shouldUpdate` returns `false`. -/
theorem shouldUpdate_irrelevant (mode : Mode) (e : Entities) (A B : Snapshot)
    (h : ∀ id ∈ uniqueIds mode e, observEq (A id) (B id)) :
    shouldUpdate mode e (some A) B = false := by
  unfold shouldUpdate
  rw [List.any_eq_false]
  intro id hid
  have := h id hid
  cases hA : A id <;> cases hB : B id <;>
    rw [hA, hB] at this <;> simp only [observEq] at this <;>
    simp [stateTriggers, this]

/-- Witness for `shouldUpdate_irrelevant`: in `charge` mode, a pair of
snapshots where a discharge entity changed completely and a charge entity
changed only in an uninspected attribute. -/
def snapOldW : Snapshot := fun id =>
  if id = defaultEntities.chargeStart then some ⟨"06:00", some false, "t1", "t1", "attrs0"⟩
  else if id = defaultEntities.dischargeStart then some ⟨"18:00", none, "t1", "t1", "a"⟩
  else none

/-- New snapshot of the `shouldUpdate_irrelevant` witness. -/
def snapNewW : Snapshot := fun id =>
  if id = defaultEntities.chargeStart then some ⟨"06:00", some false, "t1", "t1", "attrs1"⟩
  else if id = defaultEntities.dischargeStart then some ⟨"19:30", some true, "t2", "t2", "b"⟩
  else none

/-- Witness: the `shouldUpdate_irrelevant` hypotheses hold for the concrete
pair above and the refresh decision is `false`. -/
theorem shouldUpdate_irrelevant_witness :
    (∀ id ∈ uniqueIds Mode.charge defaultEntities, observEq (snapOldW id) (snapNewW id)) ∧
    shouldUpdate Mode.charge defaultEntities (some snapOldW) snapNewW = false :=
  ⟨by decide, shouldUpdate_irrelevant Mode.charge defaultEntities snapOldW snapNewW (by decide)⟩

/-! ## C5: slider round-trip idempotence -/

/-- `Math.round x` is at most `x + 1/2`. -/
theorem jsRound_le (x : ℚ) : (jsRound x : ℚ) ≤ x + 1/2 := Int.floor_le _

/-- `Math.round x` exceeds `x - 1/2`. -/
theorem lt_jsRound (x : ℚ) : x - 1/2 < (jsRound x : ℚ) := by
  have h := Int.lt_floor_add_one (x + 1/2)
  unfold jsRound
  linarith

/-- Characterisation of `Math.round`: on `[n - 1/2, n + 1/2)` it returns
`n`. -/
theorem jsRound_eq_of (n : ℤ) (x : ℚ) (h1 : (n : ℚ) - 1/2 ≤ x)
    (h2 : x < (n : ℚ) + 1/2) : jsRound x = n := by
  unfold jsRound
  rw [Int.floor_eq_iff]
  constructor
  · linarith
  · linarith

/-- `Math.round` of an integer is itself. -/
theorem jsRound_intCast (n : ℤ) : jsRound (n : ℚ) = n :=
  jsRound_eq_of n _ (by linarith) (by linarith)

/-- `kwToPercent ∘ percentToSliderKw`, rewritten to a two-rounding normal
form. -/
theorem sliderKw_percent_eq (M p : ℚ) (hM0 : M ≠ 0) :
    sliderKwToPercent M (percentToSliderKw M p) =
      jsRound (50 * (jsRound (p * M / 50) : ℚ) / M) := by
  unfold sliderKwToPercent percentToSliderKw
  rw [show p / 100 * M * 2 = p * M / 50 by ring]
  congr 1
  field_simp
  ring

/-- Double application of the rounding pair stabilises after the first:
`round (50 * round (round (50k/M) * M / 50) / M) = round (50k/M)`. -/
theorem jsRound_double (M : ℚ) (hM : 0 < M) (k : ℤ) :
    jsRound (50 * (jsRound ((jsRound (50 * (k : ℚ) / M) : ℚ) * M / 50) : ℚ) / M)
      = jsRound (50 * (k : ℚ) / M) := by
  have hM0 : M ≠ 0 := ne_of_gt hM
  set q := jsRound (50 * (k : ℚ) / M) with hqdef
  have hqu : (q : ℚ) ≤ 50 * (k : ℚ) / M + 1/2 := jsRound_le _
  have hql : 50 * (k : ℚ) / M - 1/2 < (q : ℚ) := lt_jsRound _
  have h1 : 50 * (k : ℚ) - M / 2 < (q : ℚ) * M := by
    have h := mul_lt_mul_of_pos_right hql hM
    rw [sub_mul, div_mul_cancel₀ _ hM0] at h
    linarith
  have h2 : (q : ℚ) * M ≤ 50 * (k : ℚ) + M / 2 := by
    have h := mul_le_mul_of_nonneg_right hqu hM.le
    rw [add_mul, div_mul_cancel₀ _ hM0] at h
    linarith
  rcases lt_trichotomy M 50 with hlt | heq | hgt
  · -- M < 50: the middle rounding recovers k exactly
    have hk' : jsRound ((q : ℚ) * M / 50) = k := by
      apply jsRound_eq_of
      · linarith
      · linarith
    rw [hk']
  · -- M = 50: every stage is the identity on integers
    subst heq
    have hk' : jsRound ((q : ℚ) * 50 / 50) = q := by
      rw [show (q : ℚ) * 50 / 50 = (q : ℚ) by ring]
      exact jsRound_intCast q
    rw [hk']
    rw [show 50 * (q : ℚ) / 50 = (q : ℚ) by ring]
    exact jsRound_intCast q
  · -- M > 50: the outer rounding recovers q exactly
    set k' := jsRound ((q : ℚ) * M / 50) with hk'def
    have hk'u : (k' : ℚ) ≤ (q : ℚ) * M / 50 + 1/2 := jsRound_le _
    have hk'l : (q : ℚ) * M / 50 - 1/2 < (k' : ℚ) := lt_jsRound _
    have h3 : 50 * (k' : ℚ) ≤ (q : ℚ) * M + 25 := by linarith
    have h4 : (q : ℚ) * M - 25 < 50 * (k' : ℚ) := by linarith
    apply jsRound_eq_of
    · rw [le_div_iff₀ hM, sub_mul]
      linarith
    · rw [div_lt_iff₀ hM, add_mul]
      linarith

/-- C5: for every percent value `p` and positive `maxOutputKw` `M`, the pair
`_percentToSliderKw` then `_sliderKwToPercent` is idempotent after one round
trip: applying the pair to its own output changes nothing (though a single
application need not return `p`). -/
theorem slider_roundtrip_idem (M p : ℚ) (hM : 0 < M) :
    sliderKwToPercent M (percentToSliderKw M
      ((sliderKwToPercent M (percentToSliderKw M p) : ℤ) : ℚ)) =
    sliderKwToPercent M (percentToSliderKw M p) := by
  have hM0 : M ≠ 0 := ne_of_gt hM
  rw [sliderKw_percent_eq M p hM0, sliderKw_percent_eq M _ hM0]
  exact jsRound_double M hM (jsRound (p * M / 50))

/-- Witness for `slider_roundtrip_idem` at `maxOutputKw = 6`, `p = 37`
(a case where the single round trip already moves the value:
`37% ↦ 2 kW ↦ 33%`). -/
theorem slider_roundtrip_idem_witness :
    (0 : ℚ) < 6 ∧
    sliderKwToPercent 6 (percentToSliderKw 6
      ((sliderKwToPercent 6 (percentToSliderKw 6 37) : ℤ) : ℚ)) =
    sliderKwToPercent 6 (percentToSliderKw 6 37) ∧
    sliderKwToPercent 6 (percentToSliderKw 6 37) = 33 :=
  ⟨by norm_num, slider_roundtrip_idem 6 37 (by norm_num), by
    unfold sliderKwToPercent percentToSliderKw
    rw [show (37 : ℚ) / 100 * 6 * 2 = 111/25 by norm_num,
      show jsRound (111/25) = 4 from jsRound_eq_of 4 _ (by norm_num) (by norm_num),
      show ((4 : ℤ) : ℚ) / 2 / 6 * 100 = 100/3 by norm_num]
    exact jsRound_eq_of 33 _ (by norm_num) (by norm_num)⟩

/-! ## Digit-string lemmas -/

/-- `digitChar` of a digit value has code point `48 + d`. -/
theorem digitChar_toNat (d : Nat) (h : d < 10) : (digitChar d).toNat = 48 + d := by
  interval_cases d <;> rfl

/-- `digitChar` of a digit value is a digit character. -/
theorem jsIsDigit_digitChar (d : Nat) (h : d < 10) : jsIsDigit (digitChar d) = true := by
  interval_cases d <;> rfl

/-- A digit character is not the separator `':'`. -/
theorem jsIsDigit_ne_colon (c : Char) (h : jsIsDigit c = true) : c ≠ ':' := by
  intro hc
  subst hc
  exact absurd h (by decide)

/-- Reading one more digit multiplies the accumulated value by ten. -/
theorem charsToNat_append_digit (cs : List Char) (c : Char) :
    charsToNat (cs ++ [c]) = 10 * charsToNat cs + (c.toNat - 48) := by
  unfold charsToNat
  rw [List.foldl_append]
  rfl

/-- A leading `'0'` does not change the value of a digit string. -/
theorem charsToNat_cons_zero (cs : List Char) :
    charsToNat ('0' :: cs) = charsToNat cs := rfl

/-- The digit expansion consists of digits and evaluates back to `n`
(for sufficient fuel). -/
theorem natToCharsAux_spec (fuel : Nat) :
    ∀ n, n < fuel →
      (∀ c ∈ natToCharsAux fuel n, jsIsDigit c = true) ∧
      charsToNat (natToCharsAux fuel n) = n := by
  induction fuel with
  | zero => omega
  | succ fuel ih =>
    intro n hn
    unfold natToCharsAux
    by_cases h10 : n < 10
    · rw [if_pos h10]
      refine ⟨?_, ?_⟩
      · intro c hc
        rw [List.mem_singleton] at hc
        subst hc
        exact jsIsDigit_digitChar n h10
      · show charsToNat ([] ++ [digitChar n]) = n
        rw [charsToNat_append_digit, digitChar_toNat n h10]
        show 10 * 0 + (48 + n - 48) = n
        omega
    · rw [if_neg h10]
      have hdiv : n / 10 < fuel := by omega
      obtain ⟨ihd, ihv⟩ := ih (n / 10) hdiv
      refine ⟨?_, ?_⟩
      · intro c hc
        rw [List.mem_append] at hc
        rcases hc with hc | hc
        · exact ihd c hc
        · rw [List.mem_singleton] at hc
          subst hc
          exact jsIsDigit_digitChar _ (by omega)
      · rw [charsToNat_append_digit, ihv, digitChar_toNat _ (by omega)]
        omega

/-- `String(n)` is all digits. -/
theorem natToChars_digits (n : Nat) : ∀ c ∈ natToChars n, jsIsDigit c = true :=
  (natToCharsAux_spec (n + 1) n (by omega)).1

/-- `Number(String(n)) = n`. -/
theorem charsToNat_natToChars (n : Nat) : charsToNat (natToChars n) = n :=
  (natToCharsAux_spec (n + 1) n (by omega)).2

/-- The two-digit padding is all digits. -/
theorem pad2_digits (n : Nat) : ∀ c ∈ pad2 n, jsIsDigit c = true := by
  unfold pad2
  by_cases h : n < 10
  · rw [if_pos h]
    intro c hc
    rcases List.mem_cons.mp hc with hc | hc
    · subst hc
      rfl
    · exact natToChars_digits n c hc
  · rw [if_neg h]
    exact natToChars_digits n

/-- The two-digit padding parses back to `n`. -/
theorem charsToNat_pad2 (n : Nat) : charsToNat (pad2 n) = n := by
  unfold pad2
  by_cases h : n < 10
  · rw [if_pos h, charsToNat_cons_zero, charsToNat_natToChars]
  · rw [if_neg h, charsToNat_natToChars]

/-- `Number` accepts the padded digit string and returns `n`. -/
theorem jsNumberChars_pad2 (n : Nat) : jsNumberChars (pad2 n) = some n := by
  unfold jsNumberChars
  rw [if_pos, charsToNat_pad2]
  rw [List.all_eq_true]
  exact pad2_digits n

/-! ## `split(':')` lemmas -/

/-- Splitting a colon-free string yields a single group. -/
theorem splitColon_no_colon (cs : List Char) (h : ∀ c ∈ cs, c ≠ ':') :
    splitColon cs = [cs] := by
  induction cs with
  | nil => rfl
  | cons c rest ih =>
    conv_lhs => rw [splitColon]
    rw [if_neg (h c (List.mem_cons_self _ _))]
    rw [ih fun c hc => h c (List.mem_cons_of_mem _ hc)]

/-- Splitting at the first colon: a colon-free prefix becomes the first
group. -/
theorem splitColon_append (a b : List Char) (h : ∀ c ∈ a, c ≠ ':') :
    splitColon (a ++ ':' :: b) = a :: splitColon b := by
  induction a with
  | nil => simp [splitColon]
  | cons c a' ih =>
    show splitColon (c :: (a' ++ ':' :: b)) = (c :: a') :: splitColon b
    conv_lhs => rw [splitColon]
    rw [if_neg (h c (List.mem_cons_self _ _))]
    rw [ih fun c hc => h c (List.mem_cons_of_mem _ hc)]

/-! ## C7: end-time computation -/

/-- C7: for every valid `HH:MM` start time and non-negative integer
duration, `_calculateEndTime` returns start plus duration taken modulo 24
hours, zero-padded; in particular `("23:50", 20) ↦ "00:10"` (midnight
rollover) and `("08:00", 30) ↦ "08:30"` (see the witness). -/
theorem calculateEndTime_spec (h m d : Nat) (hh : h < 24) (hm : m < 60) :
    calculateEndTime (String.mk (pad2 h ++ ':' :: pad2 m)) (some (d : Int)) =
      String.mk (pad2 (((h * 60 + m + d) % 1440) / 60) ++
        ':' :: pad2 (((h * 60 + m + d) % 1440) % 60)) := by
  have hsplit : splitColon (pad2 h ++ ':' :: pad2 m) = [pad2 h] ++ splitColon (pad2 m) :=
    splitColon_append _ _ fun c hc => jsIsDigit_ne_colon c (pad2_digits h c hc)
  have hsplit2 : splitColon (pad2 m) = [pad2 m] :=
    splitColon_no_colon _ fun c hc => jsIsDigit_ne_colon c (pad2_digits m c hc)
  unfold calculateEndTime
  rw [show (String.mk (pad2 h ++ ':' :: pad2 m)).data = pad2 h ++ ':' :: pad2 m from rfl]
  rw [hsplit, hsplit2]
  simp only [List.cons_append, List.nil_append]
  rw [jsNumberChars_pad2, jsNumberChars_pad2]
  show formatEndTime h m (d : Int) = _
  unfold formatEndTime
  have harith : (((h * 60 + m : Nat) : Int) + ((d : Nat) : Int)) % 1440
      = (((h * 60 + m + d) % 1440 : Nat) : Int) := by
    push_cast
    omega
  rw [harith, Int.toNat_natCast]

/-- Witness for `calculateEndTime_spec`: the two examples from the spec,
`23:50 + 20 min = 00:10` and `08:00 + 30 min = 08:30`, together with the
identification of the padded strings with the literals. -/
theorem calculateEndTime_spec_witness :
    calculateEndTime "23:50" (some 20) = "00:10" ∧
    calculateEndTime "08:00" (some 30) = "08:30" := by
  constructor
  · exact calculateEndTime_spec 23 50 20 (by decide) (by decide)
  · exact calculateEndTime_spec 8 0 30 (by decide) (by decide)

/-! ## C10: `_timeToMinutes` is total and bounded -/

/-- `jsIsDigit` unpacked to code-point bounds. -/
theorem jsIsDigit_iff (c : Char) : jsIsDigit c = true ↔ 48 ≤ c.toNat ∧ c.toNat ≤ 57 := by
  simp [jsIsDigit, Bool.and_eq_true, decide_eq_true_eq]

/-- A string accepted by the strict time regex is five characters
`h₁h₂:m₁m₂` whose two components are digit pairs in range. -/
theorem validTime_shape (cs : List Char) (h : validTime cs = true) :
    ∃ c1 c2 c3 c4, cs = [c1, c2, ':', c3, c4] ∧
      jsIsDigit c1 = true ∧ jsIsDigit c2 = true ∧
      jsIsDigit c3 = true ∧ jsIsDigit c4 = true ∧
      charsToNat [c1, c2] ≤ 23 ∧ charsToNat [c3, c4] ≤ 59 := by
  rcases cs with _ | ⟨c1, _ | ⟨c2, _ | ⟨c, _ | ⟨c3, _ | ⟨c4, _ | ⟨c5, rest⟩⟩⟩⟩⟩⟩
  · exact absurd h (by simp [validTime])
  · exact absurd h (by simp [validTime])
  · exact absurd h (by simp [validTime])
  · exact absurd h (by simp [validTime])
  · exact absurd h (by simp [validTime])
  case cons.cons.cons.cons.cons.nil =>
    simp only [validTime, Bool.and_eq_true, Bool.or_eq_true, decide_eq_true_eq] at h
    obtain ⟨⟨⟨hcolon, hhour⟩, hm1⟩, hm2⟩ := h
    subst hcolon
    have e2 : charsToNat [c1, c2] = 10 * (c1.toNat - 48) + (c2.toNat - 48) := by
      show 10 * (10 * 0 + (c1.toNat - 48)) + (c2.toNat - 48) = _
      omega
    have e4 : charsToNat [c3, c4] = 10 * (c3.toNat - 48) + (c4.toNat - 48) := by
      show 10 * (10 * 0 + (c3.toNat - 48)) + (c4.toNat - 48) = _
      omega
    have hm1' : 48 ≤ c3.toNat ∧ c3.toNat ≤ 53 := hm1
    have hm2' : 48 ≤ c4.toNat ∧ c4.toNat ≤ 57 := (jsIsDigit_iff c4).mp hm2
    refine ⟨c1, c2, c3, c4, rfl, ?_, ?_, ?_, ?_, ?_, ?_⟩
    · rcases hhour with ⟨h01 | h01, _⟩ | ⟨⟨h2, _⟩, _⟩
      · subst h01; rfl
      · subst h01; rfl
      · subst h2; rfl
    · rcases hhour with ⟨_, hd⟩ | ⟨⟨_, hbl⟩, hbr⟩
      · exact hd
      · exact (jsIsDigit_iff c2).mpr ⟨hbl, by omega⟩
    · exact (jsIsDigit_iff c3).mpr ⟨hm1'.1, by omega⟩
    · exact hm2
    · rcases hhour with ⟨h01 | h01, hd⟩ | ⟨⟨h2, hbl⟩, hbr⟩
      · subst h01
        have : ('0' : Char).toNat = 48 := rfl
        have := (jsIsDigit_iff c2).mp hd
        omega
      · subst h01
        have : ('1' : Char).toNat = 49 := rfl
        have := (jsIsDigit_iff c2).mp hd
        omega
      · subst h2
        have : ('2' : Char).toNat = 50 := rfl
        omega
    · omega
  case cons.cons.cons.cons.cons.cons =>
    exact absurd h (by simp [validTime])

/-- `_timeToMinutes` on a string the regex accepts: the split succeeds and
the result is the hour pair times sixty plus the minute pair. -/
theorem timeToMinutes_valid (str : String) (h : validTime str.data = true) :
    ∃ c1 c2 c3 c4, str.data = [c1, c2, ':', c3, c4] ∧
      timeToMinutes (some str) = charsToNat [c1, c2] * 60 + charsToNat [c3, c4] := by
  obtain ⟨c1, c2, c3, c4, hshape, hd1, hd2, hd3, hd4, _, _⟩ := validTime_shape str.data h
  refine ⟨c1, c2, c3, c4, hshape, ?_⟩
  have hne : ¬ str = "" := by
    intro he
    subst he
    simp at hshape
  simp only [timeToMinutes]
  rw [if_neg hne, if_neg (by rw [h]; exact fun hc => hc rfl)]
  have hsplit : splitColon str.data = [c1, c2] :: splitColon [c3, c4] := by
    rw [hshape]
    exact splitColon_append [c1, c2] [c3, c4] (by
      intro c hc
      rcases List.mem_cons.mp hc with hc | hc
      · subst hc; exact jsIsDigit_ne_colon _ hd1
      · rw [List.mem_singleton] at hc
        subst hc; exact jsIsDigit_ne_colon _ hd2)
  have hsplit2 : splitColon [c3, c4] = [[c3, c4]] :=
    splitColon_no_colon [c3, c4] (by
      intro c hc
      rcases List.mem_cons.mp hc with hc | hc
      · subst hc; exact jsIsDigit_ne_colon _ hd3
      · rw [List.mem_singleton] at hc
        subst hc; exact jsIsDigit_ne_colon _ hd4)
  rw [hsplit, hsplit2]

/-- C10: `_timeToMinutes` is total and bounded.  Every input maps into
`[0, 1439]`; a strict `HH:MM` input maps to `hours * 60 + minutes`; every
other input (missing string or regex-rejected string) maps to `0`. -/
theorem timeToMinutes_total :
    (∀ s : Option String, timeToMinutes s ≤ 1439) ∧
    (∀ str : String, validTime str.data = true →
      ∃ c1 c2 c3 c4, str.data = [c1, c2, ':', c3, c4] ∧
        timeToMinutes (some str) = charsToNat [c1, c2] * 60 + charsToNat [c3, c4]) ∧
    (∀ str : String, validTime str.data = false → timeToMinutes (some str) = 0) ∧
    timeToMinutes none = 0 := by
  have hinvalid : ∀ str : String, validTime str.data = false → timeToMinutes (some str) = 0 := by
    intro str h
    simp only [timeToMinutes]
    by_cases he : str = ""
    · rw [if_pos he]
    · rw [if_neg he, if_pos (by rw [h]; exact fun hc => Bool.false_ne_true hc)]
  refine ⟨?_, timeToMinutes_valid, hinvalid, rfl⟩
  intro s
  match s with
  | none => simp [timeToMinutes]
  | some str =>
    cases hv : validTime str.data with
    | false => rw [hinvalid str hv]; omega
    | true =>
      obtain ⟨c1, c2, c3, c4, hshape, hd1, hd2, hd3, hd4, hb1, hb2⟩ :=
        validTime_shape str.data hv
      obtain ⟨e1, e2, e3, e4, heq⟩ := timeToMinutes_valid str hv
      rw [heq.2]
      have hinj : [c1, c2, ':', c3, c4] = [e1, e2, ':', e3, e4] := by
        rw [← hshape, heq.1]
      injection hinj with i1 hinj
      injection hinj with i2 hinj
      injection hinj with _ hinj
      injection hinj with i3 hinj
      injection hinj with i4 _
      subst i1; subst i2; subst i3; subst i4
      omega

/-- Witness for `timeToMinutes_total` at the concrete inputs `"07:30"`
(valid, within bound) and `"7:30"` (regex-rejected, mapped to `0`). -/
theorem timeToMinutes_total_witness :
    timeToMinutes (some "07:30") ≤ 1439 ∧
    timeToMinutes (some "7:30") = 0 ∧
    timeToMinutes (some "07:30") = 450 :=
  ⟨timeToMinutes_total.1 (some "07:30"),
   timeToMinutes_total.2.2.1 "7:30" (by decide),
   by decide⟩

/-! ## C2: expiry check issues switch-off commands -/

/-- A direction branch of the expiry check emits either nothing or exactly
one `turn_off` for the direction's switch. -/
theorem checkDirExpiration_sub (sw et : Option EntityState) (switchId : String)
    (cur : Nat) :
    checkDirExpiration sw et switchId cur = [] ∨
    checkDirExpiration sw et switchId cur = [Cmd.turnOff switchId] := by
  rcases sw with _ | s
  · exact Or.inl rfl
  rcases et with _ | t
  · exact Or.inl rfl
  show (if s.state = "on" then
      if t.state ≠ "" then
        if timeToMinutes (some t.state) ≤ cur then [Cmd.turnOff switchId] else []
      else []
    else []) = [] ∨
    (if s.state = "on" then
      if t.state ≠ "" then
        if timeToMinutes (some t.state) ≤ cur then [Cmd.turnOff switchId] else []
      else []
    else []) = [Cmd.turnOff switchId]
  split_ifs <;> simp

/-- The direction branch fires exactly when the switch reads `'on'`, the
end-time state is non-empty and its parsed minutes do not exceed the
current minutes. -/
theorem checkDirExpiration_fires (s t : EntityState) (switchId : String)
    (cur : Nat) (hon : s.state = "on") (hne : t.state ≠ "")
    (hexp : timeToMinutes (some t.state) ≤ cur) :
    checkDirExpiration (some s) (some t) switchId cur = [Cmd.turnOff switchId] := by
  show (if s.state = "on" then
      if t.state ≠ "" then
        if timeToMinutes (some t.state) ≤ cur then [Cmd.turnOff switchId] else []
      else []
    else []) = [Cmd.turnOff switchId]
  rw [if_pos hon, if_pos hne, if_pos hexp]

/-- C2 (amended): for a direction enabled by the mode, with the two
directions' switch roles configured to distinct entity ids, whenever the
expiry check runs with that direction's switch `'on'` and its end-time
entity present with a non-empty state whose parsed minutes (malformed
non-empty strings parse to minute `0`) do not exceed the current minutes,
exactly one switch-off command for that direction's switch is emitted. -/
theorem checkTimer_expired_once (mode : Mode) (e : Entities) (hass : Snapshot)
    (now : String) (d : Direction) (hd : directionEnabled d mode)
    (hdistinct : e.chargingSwitch ≠ e.dischargingSwitch)
    (sw et : EntityState)
    (hsw : hass (switchEnt d e) = some sw) (hon : sw.state = "on")
    (het : hass (endEnt d e) = some et) (hne : et.state ≠ "")
    (hexp : timeToMinutes (some et.state) ≤ timeToMinutes (some now)) :
    (checkTimerExpiration mode e hass now).count (Cmd.turnOff (switchEnt d e)) = 1 := by
  unfold checkTimerExpiration
  rw [List.count_append]
  cases d with
  | charge =>
    have hmode : mode ≠ .discharge := hd
    rw [if_pos hmode]
    rw [show switchEnt Direction.charge e = e.chargingSwitch from rfl] at hsw ⊢
    rw [show endEnt Direction.charge e = e.chargeEnd from rfl] at het
    rw [hsw, het, checkDirExpiration_fires sw et _ _ hon hne hexp]
    have hz :
        (if mode ≠ Mode.charge then
          checkDirExpiration (hass e.dischargingSwitch) (hass e.dischargeEnd)
            e.dischargingSwitch (timeToMinutes (some now))
         else []).count (Cmd.turnOff e.chargingSwitch) = 0 := by
      split
      · rcases checkDirExpiration_sub (hass e.dischargingSwitch) (hass e.dischargeEnd)
          e.dischargingSwitch (timeToMinutes (some now)) with h0 | h1
        · rw [h0]; rfl
        · rw [h1]
          simp [List.count_singleton']
          intro hcontra
          exact hdistinct hcontra.symm
      · rfl
    rw [hz]
    simp [List.count_singleton]
  | discharge =>
    have hmode : mode ≠ .charge := hd
    rw [if_pos hmode]
    rw [show switchEnt Direction.discharge e = e.dischargingSwitch from rfl] at hsw ⊢
    rw [show endEnt Direction.discharge e = e.dischargeEnd from rfl] at het
    rw [hsw, het, checkDirExpiration_fires sw et _ _ hon hne hexp]
    have hz :
        (if mode ≠ Mode.discharge then
          checkDirExpiration (hass e.chargingSwitch) (hass e.chargeEnd)
            e.chargingSwitch (timeToMinutes (some now))
         else []).count (Cmd.turnOff e.dischargingSwitch) = 0 := by
      split
      · rcases checkDirExpiration_sub (hass e.chargingSwitch) (hass e.chargeEnd)
          e.chargingSwitch (timeToMinutes (some now)) with h0 | h1
        · rw [h0]; rfl
        · rw [h1]
          simp [List.count_singleton']
          intro hcontra
          exact hdistinct hcontra
      · rfl
    rw [hz]
    simp [List.count_singleton]

/-- Snapshot for the `checkTimer_expired_once` witness: charging switch on,
end time the malformed (but non-empty) `"7:00"`. -/
def hassExpiryW : Snapshot := fun id =>
  if id = defaultEntities.chargingSwitch then some ⟨"on", none, "t", "t", ""⟩
  else if id = defaultEntities.chargeEnd then some ⟨"7:00", none, "t", "t", ""⟩
  else none

/-- Witness for `checkTimer_expired_once`: in `both` mode at `12:00`, the
malformed end time `"7:00"` parses to minute `0` and forces one charge
switch-off. -/
theorem checkTimer_expired_once_witness :
    validTime "7:00".data = false ∧
    (checkTimerExpiration Mode.both defaultEntities hassExpiryW "12:00").count
      (Cmd.turnOff (switchEnt Direction.charge defaultEntities)) = 1 :=
  ⟨by decide,
   checkTimer_expired_once Mode.both defaultEntities hassExpiryW "12:00"
     Direction.charge (by decide) (by decide)
     ⟨"on", none, "t", "t", ""⟩ ⟨"7:00", none, "t", "t", ""⟩
     (by decide) rfl (by decide) (by decide) (by decide)⟩

/-- Snapshot for the C2 counterexample: charging switch on, end-time entity
present with the empty string as state. -/
def hassExpiryEmpty : Snapshot := fun id =>
  if id = defaultEntities.chargingSwitch then some ⟨"on", none, "t", "t", ""⟩
  else if id = defaultEntities.chargeEnd then some ⟨"", none, "t", "t", ""⟩
  else none

/-- C2 counterexample: with the charge switch `'on'` and the end-time
entity present holding the malformed empty string (which parses to minute
`0 ≤ now`), the expiry check emits no command at all — the code's
truthiness guard on the end-time state skips the empty string, contrary to
the claim that every malformed end time forces immediate expiry. -/
theorem checkTimer_empty_end_counterexample :
    (hassExpiryEmpty defaultEntities.chargingSwitch).map EntityState.state = some "on" ∧
    (hassExpiryEmpty defaultEntities.chargeEnd).isSome = true ∧
    timeToMinutes (some "") ≤ timeToMinutes (some "12:00") ∧
    checkTimerExpiration Mode.both defaultEntities hassExpiryEmpty "12:00" = [] := by
  refine ⟨by decide, by decide, by decide, by decide⟩

/-! ## C4: Enable with the switch on is a pure extend action -/

/-- C4 (amended): when a direction's switch reads `'on'` and the
direction's configured end-time entity id is non-empty and present in the
snapshot, clicking Enable emits exactly one command: a `set_value` on the
end-time entity carrying current time plus the parsed duration — and in
particular no write to the start-time, day-mask, power or switch entities
of either direction. -/
theorem enableClick_extend (d : Direction) (maxOutput : ℚ) (e : Entities)
    (hass : Snapshot) (timerVal : Option String) (sliderVal : Option ℚ)
    (now : String) (jsDay : Nat) (sw : EntityState)
    (hsw : hass (switchEnt d e) = some sw) (hon : sw.state = "on")
    (hid : endEnt d e ≠ "") (hend : (hass (endEnt d e)).isSome = true) :
    enableClick d maxOutput e hass timerVal sliderVal now jsDay =
      [Cmd.setText (endEnt d e) (calculateEndTime now (parsedDuration timerVal))] := by
  obtain ⟨et, het⟩ := Option.isSome_iff_exists.mp hend
  unfold enableClick
  rw [hsw]
  rw [if_pos (by show some sw.state = some "on"; rw [hon])]
  unfold setEntityValue
  rw [if_neg hid, het]

/-- Snapshot for the `enableClick_extend` witness: both entities exist, the
charge switch is on. -/
def hassEnableW : Snapshot := fun id =>
  if id = defaultEntities.chargingSwitch then some ⟨"on", none, "t", "t", ""⟩
  else if id = defaultEntities.chargeEnd then some ⟨"10:00", none, "t", "t", ""⟩
  else none

/-- Witness for `enableClick_extend`: clicking Enable at `09:15` with a
duration input of `"45"` writes only the end-time entity, with value
`10:00`. -/
theorem enableClick_extend_witness :
    enableClick Direction.charge 5 defaultEntities hassEnableW (some "45") (some 2)
      "09:15" 3 =
      [Cmd.setText defaultEntities.chargeEnd "10:00"] ∧
    calculateEndTime "09:15" (parsedDuration (some "45")) = "10:00" :=
  ⟨by
    rw [enableClick_extend Direction.charge 5 defaultEntities hassEnableW (some "45")
      (some 2) "09:15" 3 ⟨"on", none, "t", "t", ""⟩ (by decide) rfl (by decide) (by decide)]
    decide,
   by decide⟩

/-- Snapshot for the C4 counterexample: the charge switch is on but the
end-time entity is absent from the snapshot. -/
def hassEnableMissingEnd : Snapshot := fun id =>
  if id = defaultEntities.chargingSwitch then some ⟨"on", none, "t", "t", ""⟩
  else none

/-- C4 counterexample: with the switch `'on'` but the end-time entity
absent, clicking Enable performs no write at all — `_setEntityValue`
returns early for an entity missing from `hass.states` — contradicting the
claim that a single set-value write is performed in every state with the
switch on. -/
theorem enableClick_missing_end_counterexample :
    (hassEnableMissingEnd (switchEnt Direction.charge defaultEntities)).map
      EntityState.state = some "on" ∧
    enableClick Direction.charge 5 defaultEntities hassEnableMissingEnd (some "30")
      none "12:00" 1 = [] :=
  ⟨by decide, by decide⟩

/-! ## C3 and C9: `setConfig` validation of `maxOutput` -/

/-- Validation always fails on a truthy non-positive-number `maxOutput`. -/
theorem validateMax_bad (v : JVal) (mode : Mode) (ents : JVal) (dbg : Bool)
    (h : jsTruthy v = true) (hq : ∀ q : ℚ, v = .jnum q → q ≤ 0) :
    exceptIsError (validateMax v mode ents dbg) = true := by
  unfold validateMax resolveMax
  rw [if_pos h]
  cases hv : v with
  | jnum q =>
    have hle : q ≤ 0 := hq q hv
    show exceptIsError (if q ≤ 0 then _ else _) = true
    rw [if_pos hle]
    rfl
  | null => rfl
  | undef => rfl
  | jbool b => rfl
  | jstr s => rfl
  | jarr xs => rfl
  | jobj fs => rfl

/-- C3 (amended): for every configuration whose `maxOutput` field is truthy
and is not a positive number (a negative or non-number truthy value),
`setConfig` raises a fatal configuration error synchronously.  (A zero —
or any other falsy — `maxOutput` does NOT error: the source replaces it
with the default `5.0` before validating; see the counterexample and C9.) -/
theorem setConfig_bad_max (c : RawConfig) (h : jsTruthy c.maxOutput = true)
    (hq : ∀ q : ℚ, c.maxOutput = .jnum q → q ≤ 0) :
    exceptIsError (setConfig (some c)) = true := by
  show exceptIsError (match resolveMode c.mode with
    | none => .error "Invalid mode"
    | some mode =>
      validateMax c.maxOutput mode
        (deepMerge defaultEntitiesJson
          (if jsTruthy c.entities then c.entities else .jobj []))
        (resolveDebug c.debug)) = true
  cases hm : resolveMode c.mode with
  | none => rfl
  | some mode => exact validateMax_bad c.maxOutput mode _ _ h hq

/-- Witness for `setConfig_bad_max`: the truthy non-number `maxOutput`
value `"ten"` is rejected. -/
theorem setConfig_bad_max_witness :
    exceptIsError (setConfig (some ⟨JVal.undef, JVal.jstr "ten", JVal.undef, JVal.undef⟩))
      = true :=
  setConfig_bad_max ⟨JVal.undef, JVal.jstr "ten", JVal.undef, JVal.undef⟩
    rfl (fun q h => JVal.noConfusion h)

/-- C3 counterexample: `maxOutput: 0` is zero — "not a positive number" in
the claim's sense — yet `setConfig` succeeds (no fatal error), because `0`
is falsy and is replaced by the default before validation. -/
theorem setConfig_zero_max_counterexample :
    exceptIsError (setConfig (some ⟨JVal.undef, JVal.jnum 0, JVal.undef, JVal.undef⟩))
      = false := rfl

/-- C9: for every configuration whose `maxOutput` is falsy (absent, zero,
…) and whose mode resolves to a member of the closed set, `setConfig` does
not raise an error for `maxOutput` and resolves the inverter maximum
output to the default `5.0`. -/
theorem setConfig_falsy_max (c : RawConfig) (h : jsTruthy c.maxOutput = false)
    (m : Mode) (hm : resolveMode c.mode = some m) :
    setConfig (some c) = .ok
      { mode := m
        inverterMaxOutput := 5
        entities := deepMerge defaultEntitiesJson
          (if jsTruthy c.entities then c.entities else .jobj [])
        debug := resolveDebug c.debug } := by
  show (match resolveMode c.mode with
    | none => Except.error "Invalid mode"
    | some mode =>
      validateMax c.maxOutput mode
        (deepMerge defaultEntitiesJson
          (if jsTruthy c.entities then c.entities else .jobj []))
        (resolveDebug c.debug)) = _
  rw [hm]
  show validateMax c.maxOutput m _ _ = _
  unfold validateMax resolveMax
  rw [if_neg (by rw [h]; exact Bool.false_ne_true)]
  show (if (5 : ℚ) ≤ 0 then _ else _) = _
  rw [if_neg (by norm_num)]

/-- Witness for `setConfig_falsy_max`: `maxOutput: 0` with an absent mode
resolves to mode `both` and the default `5.0` kW. -/
theorem setConfig_falsy_max_witness :
    setConfig (some ⟨JVal.undef, JVal.jnum 0, JVal.undef, JVal.undef⟩) = .ok
      { mode := Mode.both
        inverterMaxOutput := 5
        entities := deepMerge defaultEntitiesJson
          (if jsTruthy JVal.undef then JVal.undef else .jobj [])
        debug := resolveDebug JVal.undef } :=
  setConfig_falsy_max ⟨JVal.undef, JVal.jnum 0, JVal.undef, JVal.undef⟩ rfl
    Mode.both rfl

/-! ## C8: `_deepMerge` lemmas -/

/-- Reading back through a property write. -/
theorem jsGet_jsSet (fields : List (String × JVal)) (k : String) (v : JVal)
    (k' : String) :
    jsGet (jsSet fields k v) k' = if k' = k then v else jsGet fields k' := by
  induction fields with
  | nil =>
    show jsGet [(k, v)] k' = _
    by_cases h : k' = k
    · subst h
      simp [jsGet]
    · simp [jsGet, h, Ne.symm h]
  | cons hd rest ih =>
    obtain ⟨a, w⟩ := hd
    show jsGet (if a = k then (a, v) :: rest else (a, w) :: jsSet rest k v) k' = _
    by_cases hak : a = k
    · subst hak
      rw [if_pos rfl]
      show (if a = k' then v else jsGet rest k') = _
      by_cases hk : k' = a
      · subst hk
        simp [jsGet]
      · rw [if_neg (Ne.symm hk), if_neg hk]
        show _ = jsGet ((a, w) :: rest) k'
        rw [show jsGet ((a, w) :: rest) k' = if a = k' then w else jsGet rest k' from rfl]
        rw [if_neg (Ne.symm hk)]
    · rw [if_neg hak]
      show (if a = k' then w else jsGet (jsSet rest k v) k') = _
      rw [show jsGet ((a, w) :: rest) k' = if a = k' then w else jsGet rest k' from rfl]
      by_cases hak' : a = k'
      · rw [if_pos hak', if_pos hak']
        rw [if_neg (by intro hk; exact hak (hak'.trans hk))]
      · rw [if_neg hak', if_neg hak', ih]

/-- A key outside an association list reads as `undefined`. -/
theorem jsGet_not_mem (fields : List (String × JVal)) (k : String)
    (h : k ∉ fields.map Prod.fst) : jsGet fields k = .undef := by
  induction fields with
  | nil => rfl
  | cons hd rest ih =>
    obtain ⟨a, w⟩ := hd
    show (if a = k then w else jsGet rest k) = _
    rw [List.map_cons, List.mem_cons] at h
    push_neg at h
    rw [if_neg (by exact fun hk => h.1 hk.symm), ih h.2]

/-- What the source-keys loop of `_deepMerge` leaves at each key: keys of
the source get the combined value, all others keep the accumulator's. -/
theorem sourcePass_get (tf : List (String × JVal)) (l : List (String × JVal)) :
    ∀ acc, (l.map Prod.fst).Nodup → ∀ k,
      jsGet (sourcePass tf acc l) k =
        if k ∈ l.map Prod.fst then combineVal (jsGet tf k) (jsGet l k)
        else jsGet acc k := by
  induction l with
  | nil =>
    intro acc _ k
    simp [sourcePass]
  | cons hd rest ih =>
    obtain ⟨a, v⟩ := hd
    intro acc hnd k
    rw [List.map_cons, List.nodup_cons] at hnd
    simp only [sourcePass]
    rw [ih _ hnd.2 k]
    by_cases hmem : k ∈ rest.map Prod.fst
    · have hak : a ≠ k := fun h => hnd.1 (h ▸ hmem)
      simp [List.mem_cons, hmem, jsGet, hak]
    · by_cases hka : k = a
      · subst hka
        simp [List.mem_cons, hmem, jsGet, jsGet_jsSet]
      · simp [List.mem_cons, hmem, hka, jsGet_jsSet]

/-- What the target-keys loop of `_deepMerge` leaves at each key: keys of
the target whose source value is `undefined` are restored to the target's
value, all others keep the accumulator's. -/
theorem targetPass_get (sf : List (String × JVal)) (l : List (String × JVal)) :
    ∀ acc, (l.map Prod.fst).Nodup → ∀ k,
      jsGet (targetPass sf acc l) k =
        if k ∈ l.map Prod.fst ∧ isUndef (jsGet sf k) = true then jsGet l k
        else jsGet acc k := by
  induction l with
  | nil =>
    intro acc _ k
    simp [targetPass]
  | cons hd rest ih =>
    obtain ⟨a, v⟩ := hd
    intro acc hnd k
    rw [List.map_cons, List.nodup_cons] at hnd
    simp only [targetPass]
    rw [ih _ hnd.2 k]
    by_cases hu : isUndef (jsGet sf k) = true
    · by_cases hmem : k ∈ rest.map Prod.fst
      · have hak : a ≠ k := fun h => hnd.1 (h ▸ hmem)
        simp [List.mem_cons, hmem, hu, jsGet, hak]
      · by_cases hka : k = a
        · subst hka
          simp [List.mem_cons, hmem, hu, jsGet, jsGet_jsSet]
        · by_cases hua : isUndef (jsGet sf a) = true
          · simp [List.mem_cons, hmem, hka, hu, hua, jsGet_jsSet]
          · simp [List.mem_cons, hmem, hka, hu, hua]
    · by_cases hka : k = a
      · subst hka
        simp [hu]
      · by_cases hua : isUndef (jsGet sf a) = true
        · simp [hu, hua, jsGet_jsSet, hka]
        · simp [hu, hua]

/-- The two-objects case of `_deepMerge` as an equation. -/
theorem deepMerge_obj (tf sf : List (String × JVal)) :
    deepMerge (.jobj tf) (.jobj sf) = .jobj (targetPass sf (sourcePass tf tf sf) tf) := by
  simp [deepMerge]

/-- The per-key combination returns the source value except when both
values are objects. -/
theorem combineVal_eq_source (tv sv : JVal)
    (h : ∀ a b, ¬(tv = .jobj a ∧ sv = .jobj b)) : combineVal tv sv = sv := by
  rw [combineVal.eq_def]
  split
  · rfl
  · exact absurd ⟨rfl, rfl⟩ (h _ _)
  · rfl

/-- The per-key combination of anything with `undefined` is `undefined`. -/
theorem combineVal_undef (tv : JVal) : combineVal tv .undef = .undef := by
  rw [combineVal.eq_def]
  split
  · rename_i heq
    exact JVal.noConfusion heq
  · rename_i heq
    exact JVal.noConfusion heq
  · rfl

/-- C8: for every default map `tf` and override object `sf` (distinct keys
each, as JS objects have), `_deepMerge` produces an object whose value at
every key `k` is: the recursive merge when both values are objects; the
override's array, wholesale, when both are arrays; the override's value for
any other key the override defines; and the default's value for every key
the override leaves `undefined` (in particular keys present only in the
default are preserved). -/
theorem deepMerge_spec (tf sf : List (String × JVal))
    (htf : (tf.map Prod.fst).Nodup) (hsf : (sf.map Prod.fst).Nodup) (k : String) :
    ∃ out, deepMerge (.jobj tf) (.jobj sf) = .jobj out ∧
      jsGet out k = (if isUndef (jsGet sf k) = true then jsGet tf k
                     else combineVal (jsGet tf k) (jsGet sf k)) ∧
      (∀ a b, jsGet tf k = .jobj a → jsGet sf k = .jobj b →
        jsGet out k = deepMerge (.jobj a) (.jobj b)) ∧
      (∀ xs ys, jsGet tf k = .jarr xs → jsGet sf k = .jarr ys →
        jsGet out k = .jarr ys) ∧
      (isUndef (jsGet sf k) = false →
        (∀ a b, ¬(jsGet tf k = .jobj a ∧ jsGet sf k = .jobj b)) →
        jsGet out k = jsGet sf k) ∧
      (jsGet sf k = .undef → jsGet out k = jsGet tf k) := by
  have hmain : jsGet (targetPass sf (sourcePass tf tf sf) tf) k =
      (if isUndef (jsGet sf k) = true then jsGet tf k
       else combineVal (jsGet tf k) (jsGet sf k)) := by
    rw [targetPass_get sf tf _ htf k, sourcePass_get tf sf _ hsf k]
    by_cases hu : isUndef (jsGet sf k) = true
    · rw [if_pos hu]
      by_cases hmem : k ∈ tf.map Prod.fst
      · rw [if_pos ⟨hmem, hu⟩]
      · rw [if_neg (fun hc => hmem hc.1)]
        by_cases hms : k ∈ sf.map Prod.fst
        · rw [if_pos hms, jsGet_not_mem tf k hmem]
          have hun : jsGet sf k = .undef := by
            cases hv : jsGet sf k <;> rw [hv] at hu <;>
              first | rfl | exact absurd hu (by simp [isUndef])
          rw [hun, combineVal_undef]
        · rw [if_neg hms]
    · rw [if_neg hu, if_neg (fun hc => hu hc.2)]
      by_cases hms : k ∈ sf.map Prod.fst
      · rw [if_pos hms]
      · exact absurd (by rw [jsGet_not_mem sf k hms]; rfl) hu
  refine ⟨targetPass sf (sourcePass tf tf sf) tf, deepMerge_obj tf sf, hmain,
    ?_, ?_, ?_, ?_⟩
  · intro a b hta hsb
    rw [hmain, hsb, hta]
    show combineVal (JVal.jobj a) (JVal.jobj b) = _
    simp [combineVal]
  · intro xs ys hta hsb
    rw [hmain, hsb, hta]
    show combineVal (JVal.jarr xs) (JVal.jarr ys) = _
    simp [combineVal]
  · intro hu hno
    rw [hmain, if_neg (by rw [hu]; exact Bool.false_ne_true)]
    exact combineVal_eq_source _ _ hno
  · intro hun
    rw [hmain, hun]
    rfl

/-- Default map of the `deepMerge_spec` witness: an array key, an object
key, a scalar key and a default-only key. -/
def tfW : List (String × JVal) :=
  [("a", .jarr [.jnum 1]), ("b", .jobj [("x", .jnum 1)]), ("c", .jnum 3),
   ("d", .jnum 4)]

/-- Override map of the `deepMerge_spec` witness. -/
def sfW : List (String × JVal) :=
  [("a", .jarr [.jnum 2, .jnum 9]), ("b", .jobj [("y", .jnum 2)]),
   ("c", .jnum 9), ("e", .jnum 5)]

/-- Witness for `deepMerge_spec` at the array-valued key `"a"` of the
concrete maps above. -/
theorem deepMerge_spec_witness :
    ∃ out, deepMerge (.jobj tfW) (.jobj sfW) = .jobj out ∧
      jsGet out "a" = (if isUndef (jsGet sfW "a") = true then jsGet tfW "a"
                       else combineVal (jsGet tfW "a") (jsGet sfW "a")) ∧
      (∀ a b, jsGet tfW "a" = .jobj a → jsGet sfW "a" = .jobj b →
        jsGet out "a" = deepMerge (.jobj a) (.jobj b)) ∧
      (∀ xs ys, jsGet tfW "a" = .jarr xs → jsGet sfW "a" = .jarr ys →
        jsGet out "a" = .jarr ys) ∧
      (isUndef (jsGet sfW "a") = false →
        (∀ a b, ¬(jsGet tfW "a" = .jobj a ∧ jsGet sfW "a" = .jobj b)) →
        jsGet out "a" = jsGet sfW "a") ∧
      (jsGet sfW "a" = .undef → jsGet out "a" = jsGet tfW "a") :=
  deepMerge_spec tfW sfW (by decide) (by decide) "a"

end SajCard
